import Mathlib

/-
Verification development for the deployment core of `installtool.py`
(package classifier, checksum verifier, remote deployment orchestrator).

The Python source is shallowly embedded: pure functions become Lean
functions; file access and remote effects are made explicit (the manifest
file is a `FileState`, digests come from a `digestOf` oracle keyed by the
path string handed to `calc_md5`, and remote operations are recorded as
event traces with their outcomes drawn from a `RemoteEnv`).  Python
exceptions are modelled with `Except PyErr`.
-/

/-- An installable package artifact as discovered on disk.
`name` models `pathlib.Path.name` (the base filename) and `path` the full
resolved location of the file. -/
structure Rpm where
  name : String
  path : String
deriving DecidableEq

/-- `RCC_PACK_LIST` from the source: expected package-name prefixes for RCC. -/
def RCC_PACK_LIST : List String :=
  ["ckct-DataHandler", "ckct-imaging", "ckct-kmod", "ckct-logger",
   "ckct-motorControl", "ckct-mscp", "ckct-rcc_config", "ckct-ReconCC",
   "ckct-recorder", "ckct-tools", "ckct-utils", "ckct-utils49172"]

/-- `DCC_PACK_LIST` from the source: expected package-name prefixes for DCC. -/
def DCC_PACK_LIST : List String :=
  ["ckct-dasControl", "ckct-dcc_config", "ckct-DiscCC", "ckct-spellmanXRayControl"]

/-- `BCC_PACK_LIST` from the source: expected package-name prefixes for BCC. -/
def BCC_PACK_LIST : List String :=
  ["ckct-BaseCC", "ckct-bcc_config"]

/-- Python `full.startswith(x)`: the characters of `x` are a prefix of the
characters of `full`. -/
def startswith (full x : String) : Bool :=
  x.toList.isPrefixOf full.toList

/-- The nested helper `find_partial(full, partial_list)` of `pack_list`:
`len(list(filter(lambda x: full.startswith(x), partial_list))) > 0`.
(The Python parameter `partial_list` is abbreviated `pl` here.) -/
def find_partial (full : String) (pl : List String) : Bool :=
  (pl.filter (fun x => startswith full x)).length > 0

/-- The state built up by the classification loop of `pack_list`:
the three per-host artifact lists and the `all_ok` flag. -/
structure Classified where
  rcc : List Rpm
  dcc : List Rpm
  bcc : List Rpm
  ok : Bool
deriving DecidableEq

/-- The classification loop of `pack_list` (`for rpm in found_rpms: ...`).
The Python loop walks the input front to back appending to the three lists
and clearing `all_ok` on an unassigned artifact; recursing on the tail and
consing at the head builds the same three lists and the same flag. -/
def classify_lists : List Rpm → Classified
  | [] => ⟨[], [], [], true⟩
  | rpm :: rest =>
    let c := classify_lists rest
    if find_partial rpm.name RCC_PACK_LIST then ⟨rpm :: c.rcc, c.dcc, c.bcc, c.ok⟩
    else if find_partial rpm.name DCC_PACK_LIST then ⟨c.rcc, rpm :: c.dcc, c.bcc, c.ok⟩
    else if find_partial rpm.name BCC_PACK_LIST then ⟨c.rcc, c.dcc, rpm :: c.bcc, c.ok⟩
    else ⟨c.rcc, c.dcc, c.bcc, false⟩

/-- `pack_list(found_rpms)` from the source: classify every artifact, then
clear `all_ok` whenever a per-host list length differs from the expected
prefix-list length.  (The trailing `yesno`-gated early `None` return is an
operator interaction outside the core; the classification result and the
completeness flag computed before it are modelled.) -/
def pack_list (found_rpms : List Rpm) : Classified :=
  ⟨(classify_lists found_rpms).rcc,
   (classify_lists found_rpms).dcc,
   (classify_lists found_rpms).bcc,
   (classify_lists found_rpms).ok
     && decide ((classify_lists found_rpms).rcc.length = RCC_PACK_LIST.length)
     && decide ((classify_lists found_rpms).dcc.length = DCC_PACK_LIST.length)
     && decide ((classify_lists found_rpms).bcc.length = BCC_PACK_LIST.length)⟩

/-- An artifact name matching some RCC prefix (the first test of the chain). -/
def matchesRCC (rpm : Rpm) : Bool := find_partial rpm.name RCC_PACK_LIST

/-- An artifact name matching some DCC prefix. -/
def matchesDCC (rpm : Rpm) : Bool := find_partial rpm.name DCC_PACK_LIST

/-- An artifact name matching some BCC prefix. -/
def matchesBCC (rpm : Rpm) : Bool := find_partial rpm.name BCC_PACK_LIST

/-- An artifact that matches at least one of the three profiles
(i.e. one that the loop does not report as unassigned). -/
def assigned (rpm : Rpm) : Bool := matchesRCC rpm || matchesDCC rpm || matchesBCC rpm

theorem classify_rcc_eq_filter (l : List Rpm) :
    (classify_lists l).rcc = l.filter (fun rpm => matchesRCC rpm) := by
  induction l with
  | nil => rfl
  | cons rpm rest ih =>
    simp only [classify_lists, List.filter, matchesRCC] at *
    by_cases h1 : find_partial rpm.name RCC_PACK_LIST <;>
      by_cases h2 : find_partial rpm.name DCC_PACK_LIST <;>
        by_cases h3 : find_partial rpm.name BCC_PACK_LIST <;>
          simp [h1, h2, h3, ih]

theorem classify_dcc_eq_filter (l : List Rpm) :
    (classify_lists l).dcc = l.filter (fun rpm => !matchesRCC rpm && matchesDCC rpm) := by
  induction l with
  | nil => rfl
  | cons rpm rest ih =>
    simp only [classify_lists, List.filter, matchesRCC, matchesDCC] at *
    by_cases h1 : find_partial rpm.name RCC_PACK_LIST <;>
      by_cases h2 : find_partial rpm.name DCC_PACK_LIST <;>
        by_cases h3 : find_partial rpm.name BCC_PACK_LIST <;>
          simp [h1, h2, h3, ih]

theorem classify_bcc_eq_filter (l : List Rpm) :
    (classify_lists l).bcc =
      l.filter (fun rpm => !matchesRCC rpm && !matchesDCC rpm && matchesBCC rpm) := by
  induction l with
  | nil => rfl
  | cons rpm rest ih =>
    simp only [classify_lists, List.filter, matchesRCC, matchesDCC, matchesBCC] at *
    by_cases h1 : find_partial rpm.name RCC_PACK_LIST <;>
      by_cases h2 : find_partial rpm.name DCC_PACK_LIST <;>
        by_cases h3 : find_partial rpm.name BCC_PACK_LIST <;>
          simp [h1, h2, h3, ih]

theorem classify_ok_eq_all (l : List Rpm) :
    (classify_lists l).ok = l.all (fun rpm => assigned rpm) := by
  induction l with
  | nil => rfl
  | cons rpm rest ih =>
    simp only [classify_lists, List.all_cons, assigned, matchesRCC, matchesDCC, matchesBCC] at *
    by_cases h1 : find_partial rpm.name RCC_PACK_LIST <;>
      by_cases h2 : find_partial rpm.name DCC_PACK_LIST <;>
        by_cases h3 : find_partial rpm.name BCC_PACK_LIST <;>
          simp [h1, h2, h3, ih]

theorem pack_list_rcc (l : List Rpm) :
    (pack_list l).rcc = l.filter (fun rpm => matchesRCC rpm) :=
  classify_rcc_eq_filter l

theorem pack_list_dcc (l : List Rpm) :
    (pack_list l).dcc = l.filter (fun rpm => !matchesRCC rpm && matchesDCC rpm) :=
  classify_dcc_eq_filter l

theorem pack_list_bcc (l : List Rpm) :
    (pack_list l).bcc =
      l.filter (fun rpm => !matchesRCC rpm && !matchesDCC rpm && matchesBCC rpm) :=
  classify_bcc_eq_filter l

/-- A release with exactly one artifact per expected prefix across the three
profiles, used to exercise the completeness flag. -/
def fullReleaseRpms : List Rpm :=
  (RCC_PACK_LIST ++ DCC_PACK_LIST ++ BCC_PACK_LIST).map
    (fun p => ⟨p ++ "-1.0-1.x86_64.rpm", p ++ "-1.0-1.x86_64.rpm"⟩)

/-- C3: the completeness flag computed by `pack_list` is true if and only if
each host received exactly as many artifacts as its expected-prefix list has
entries and no artifact was left unassigned (so strictly more artifacts than
expected for a host also makes the flag false, by the length equalities). -/
theorem c3_pack_list_complete_iff (l : List Rpm) :
    (pack_list l).ok = true ↔
      ((pack_list l).rcc.length = RCC_PACK_LIST.length ∧
       (pack_list l).dcc.length = DCC_PACK_LIST.length ∧
       (pack_list l).bcc.length = BCC_PACK_LIST.length ∧
       ∀ rpm ∈ l, assigned rpm = true) := by
  simp only [pack_list, classify_ok_eq_all, List.all_eq_true, Bool.and_eq_true,
    decide_eq_true_eq]
  tauto

/-- Witness for C3: on a release carrying exactly one artifact per expected
prefix, every count matches and every artifact is assigned, so the flag is
true. -/
theorem c3_pack_list_complete_iff_witness : (pack_list fullReleaseRpms).ok = true :=
  (c3_pack_list_complete_iff fullReleaseRpms).mpr (by decide)

/-- C5: classification is first-match-wins in the fixed order RCC, DCC, BCC
(an artifact matching an RCC prefix lands in the RCC sequence and in no later
one, even if it also matches later profiles), an unassigned artifact appears
in no output sequence, no artifact appears in two output sequences, and each
output sequence is a sublist of the input (so it preserves relative input
order). -/
theorem c5_pack_list_partition (l : List Rpm) :
    (∀ rpm ∈ l, matchesRCC rpm = true → rpm ∈ (pack_list l).rcc) ∧
    (∀ rpm ∈ l, matchesRCC rpm = false → matchesDCC rpm = true →
        rpm ∈ (pack_list l).dcc) ∧
    (∀ rpm ∈ l, matchesRCC rpm = false → matchesDCC rpm = false →
        matchesBCC rpm = true → rpm ∈ (pack_list l).bcc) ∧
    (∀ rpm : Rpm, matchesRCC rpm = true →
        rpm ∉ (pack_list l).dcc ∧ rpm ∉ (pack_list l).bcc) ∧
    (∀ rpm : Rpm, assigned rpm = false →
        rpm ∉ (pack_list l).rcc ∧ rpm ∉ (pack_list l).dcc ∧ rpm ∉ (pack_list l).bcc) ∧
    (∀ rpm : Rpm, ¬(rpm ∈ (pack_list l).rcc ∧ rpm ∈ (pack_list l).dcc) ∧
        ¬(rpm ∈ (pack_list l).rcc ∧ rpm ∈ (pack_list l).bcc) ∧
        ¬(rpm ∈ (pack_list l).dcc ∧ rpm ∈ (pack_list l).bcc)) ∧
    (pack_list l).rcc.Sublist l ∧ (pack_list l).dcc.Sublist l ∧
    (pack_list l).bcc.Sublist l := by
  rw [pack_list_rcc, pack_list_dcc, pack_list_bcc]
  refine ⟨?_, ?_, ?_, ?_, ?_, ?_, List.filter_sublist l, List.filter_sublist l,
    List.filter_sublist l⟩
  · intro rpm hmem hr
    exact List.mem_filter.mpr ⟨hmem, hr⟩
  · intro rpm hmem hr hd
    exact List.mem_filter.mpr ⟨hmem, by simp [hr, hd]⟩
  · intro rpm hmem hr hd hb
    exact List.mem_filter.mpr ⟨hmem, by simp [hr, hd, hb]⟩
  · intro rpm hr
    constructor
    · intro hmem
      have := (List.mem_filter.mp hmem).2
      simp [hr] at this
    · intro hmem
      have := (List.mem_filter.mp hmem).2
      simp [hr] at this
  · intro rpm hun
    simp only [assigned, Bool.or_eq_false_iff] at hun
    obtain ⟨⟨hr, hd⟩, hb⟩ := hun
    refine ⟨?_, ?_, ?_⟩ <;> intro hmem <;>
      have := (List.mem_filter.mp hmem).2 <;> simp [hr, hd, hb] at this
  · intro rpm
    refine ⟨?_, ?_, ?_⟩ <;> rintro ⟨h1, h2⟩ <;>
      have e1 := (List.mem_filter.mp h1).2 <;>
      have e2 := (List.mem_filter.mp h2).2 <;>
      rcases hr : matchesRCC rpm <;> rcases hd : matchesDCC rpm <;>
        simp [hr, hd] at e1 e2

/-- Witness for C5: a concrete BCC-prefixed artifact that matches neither RCC
nor DCC prefixes is placed in the BCC output sequence. -/
theorem c5_pack_list_partition_witness :
    (⟨"ckct-BaseCC-1.0-1.armv7l.rpm", "ckct-BaseCC-1.0-1.armv7l.rpm"⟩ : Rpm) ∈
      (pack_list [⟨"ckct-BaseCC-1.0-1.armv7l.rpm", "ckct-BaseCC-1.0-1.armv7l.rpm"⟩]).bcc :=
  (c5_pack_list_partition _).2.2.1 _ (by decide) (by decide) (by decide) (by decide)

/-- Python exceptions that the verifier code can raise or catch. -/
inductive PyErr where
  | assertionError
  | ioError
  | indexError
deriving DecidableEq

/-- The manifest file as seen by `read_md5_file`: missing (its
`assert path.exists()` fires), present but unreadable (`open` raises an
OSError that nothing in the tool catches), or readable with the given
`readlines()` result.  Each line is the list of its characters, including
the trailing newline when present. -/
inductive FileState where
  | absent
  | unreadable
  | contents (lines : List (List Char))

/-- Characters Python `str.strip()` removes (ASCII whitespace). -/
def isSpaceChar (c : Char) : Bool :=
  c == ' ' || c == '\t' || c == '\n' || c == '\r' ||
    c == Char.ofNat 11 || c == Char.ofNat 12

/-- Python `line.replace('|', '')`: drop every pipe character. -/
def stripPipes (l : List Char) : List Char :=
  l.filter (fun c => !(c == '|'))

/-- Python `.strip()`: drop whitespace from both ends. -/
def pyStrip (l : List Char) : List Char :=
  ((l.dropWhile isSpaceChar).reverse.dropWhile isSpaceChar).reverse

/-- Python `.split(' ')`: split on each single space character, keeping the
empty fields produced by consecutive spaces (so `"a  b".split(' ')` is
`['a', '', 'b']`, and `"".split(' ')` is `['']`). -/
def splitOnSpace : List Char → List (List Char)
  | [] => [[]]
  | c :: rest =>
    if c == ' ' then [] :: splitOnSpace rest
    else
      match splitOnSpace rest with
      | [] => [[c]]
      | f :: fs => (c :: f) :: fs

/-- Python dict assignment `hashes[k] = v`, encoded as a
last-binding-wins association list (a later binding for the same key
shadows the earlier one, exactly as the dict overwrite does). -/
def dictSet (d : List (String × String)) (k v : String) : List (String × String) :=
  d ++ [(k, v)]

/-- Python dict read `hashes[k]`, `none` when the key is absent. -/
def dictGet? (d : List (String × String)) (k : String) : Option String :=
  (d.reverse.find? (fun p => p.1 == k)).map (fun p => p.2)

/-- Python `k in hashes.keys()`. -/
def dictMem (d : List (String × String)) (k : String) : Bool :=
  (dictGet? d k).isSome

/-- The line loop of `read_md5_file`.  For each line the source runs
`if line[0] != '|' or line[-2] != '|': continue` (so an empty string would
raise IndexError on `line[0]`, and a one-character line starting with a pipe
raises IndexError on `line[-2]`; `readlines` never yields an empty string),
then `row = line.replace('|', '').strip().split(' ')` and
`hashes[row[2]] = row[0]` (IndexError when the row has fewer than three
fields; `row[0]` always exists since `split` returns a non-empty list). -/
def read_md5_lines : List (List Char) → List (String × String) →
    Except PyErr (List (String × String))
  | [], hashes => .ok hashes
  | line :: rest, hashes =>
    match line with
    | [] => .error .indexError
    | c :: _ =>
      if !(c == '|') then read_md5_lines rest hashes
      else if line.length < 2 then .error .indexError
      else if !(line.getD (line.length - 2) ' ' == '|') then read_md5_lines rest hashes
      else
        let row := splitOnSpace (pyStrip (stripPipes line))
        if row.length < 3 then .error .indexError
        else read_md5_lines rest
          (dictSet hashes (String.mk (row.getD 2 [])) (String.mk (row.getD 0 [])))

/-- `read_md5_file(path)` from the source: assert the file exists (a missing
file raises AssertionError), read its lines, and fold the conforming lines
into the digest dict.  An existing file that `open` cannot read raises an
I/O error instead. -/
def read_md5_file (file : FileState) : Except PyErr (List (String × String)) :=
  match file with
  | .absent => .error .assertionError
  | .unreadable => .error .ioError
  | .contents lines => read_md5_lines lines []

/-- `calc_md5(path)` from the source, with the actual MD5 chunked digest of
the file at `path` abstracted into the oracle `digestOf`:
`digestOf path = none` models a path that does not exist, where the
function's `assert path.exists()` raises AssertionError; otherwise the
lowercase hex digest string is returned. -/
def calc_md5 (digestOf : String → Option String) (path : String) :
    Except PyErr String :=
  match digestOf path with
  | none => .error .assertionError
  | some d => .ok d

/-- The artifact loop of `verify_md5s`: for each rpm (in input order), take
`rpm = rpm.name`; if that name is not in the dict, clear `passed` and
continue without computing a digest; otherwise run `calc_md5(rpm)` on the
bare name (an AssertionError propagates) and clear `passed` on a digest
mismatch. -/
def verify_loop (digestOf : String → Option String)
    (hashes : List (String × String)) :
    List Rpm → Bool → Except PyErr Bool
  | [], passed => .ok passed
  | rpm :: rest, passed =>
    match dictGet? hashes rpm.name with
    | none => verify_loop digestOf hashes rest false
    | some expected =>
      match calc_md5 digestOf rpm.name with
      | .error e => .error e
      | .ok md5 =>
        if !(md5 == expected) then verify_loop digestOf hashes rest false
        else verify_loop digestOf hashes rest passed

/-- `verify_md5s(rpms, md5_file)` from the source: read the manifest inside
`try ... except AssertionError: return False` (only the missing-file
assertion is caught; any other exception propagates), then run the artifact
loop starting from `passed = True`. -/
def verify_md5s (digestOf : String → Option String) (rpms : List Rpm)
    (md5_file : FileState) : Except PyErr Bool :=
  match read_md5_file md5_file with
  | .error .assertionError => .ok false
  | .error e => .error e
  | .ok hashes => verify_loop digestOf hashes rpms true

/-- The per-artifact outcome the claims speak about: false when the name is
absent from the manifest, otherwise whether the computed digest of the file
at the bare name equals the manifest entry. -/
def artifactOutcome (digestOf : String → Option String)
    (hashes : List (String × String)) (rpm : Rpm) : Bool :=
  match dictGet? hashes rpm.name, digestOf rpm.name with
  | some expected, some d => d == expected
  | _, _ => false

theorem verify_loop_eq_all (digestOf : String → Option String)
    (hashes : List (String × String)) (rpms : List Rpm) (passed : Bool)
    (hdig : ∀ rpm ∈ rpms, dictMem hashes rpm.name = true →
      (digestOf rpm.name).isSome = true) :
    verify_loop digestOf hashes rpms passed =
      .ok (passed && rpms.all (fun rpm => artifactOutcome digestOf hashes rpm)) := by
  induction rpms generalizing passed with
  | nil => simp [verify_loop]
  | cons rpm rest ih =>
    have hdig2 : ∀ r ∈ rest, dictMem hashes r.name = true →
        (digestOf r.name).isSome = true :=
      fun r hr => hdig r (List.mem_cons_of_mem _ hr)
    have hd := hdig rpm (List.mem_cons_self _ _)
    simp only [verify_loop, List.all_cons, calc_md5]
    cases hg : dictGet? hashes rpm.name with
    | none =>
      simp [artifactOutcome, hg, ih false hdig2]
    | some expected =>
      have hmem : dictMem hashes rpm.name = true := by simp [dictMem, hg]
      cases hdo : digestOf rpm.name with
      | none =>
        simp [hdo] at hd
        rw [hd] at hmem
        exact Bool.noConfusion hmem
      | some d =>
        cases hb : (d == expected) with
        | false =>
          simp [artifactOutcome, hg, hdo, hb, ih false hdig2]
        | true =>
          simp [artifactOutcome, hg, hdo, hb, ih passed hdig2]

/-- C4: with a readable manifest, `verify_md5s` walks the artifacts in input
order; a name absent from the manifest dict is a failure recorded without any
digest computation (the digest oracle is only required to be defined at names
that are present), a present name has its digest computed and compared, and
the overall result is the logical AND of the per-artifact outcomes. -/
theorem c4_verify_md5s_all_outcomes (digestOf : String → Option String)
    (rpms : List Rpm) (lines : List (List Char)) (hashes : List (String × String))
    (hread : read_md5_file (FileState.contents lines) = .ok hashes)
    (hdig : ∀ rpm ∈ rpms, dictMem hashes rpm.name = true →
      (digestOf rpm.name).isSome = true) :
    verify_md5s digestOf rpms (FileState.contents lines) =
      .ok (rpms.all (fun rpm => artifactOutcome digestOf hashes rpm)) := by
  have h := verify_loop_eq_all digestOf hashes rpms true hdig
  simp only [verify_md5s, hread, Bool.true_and] at *
  exact h

/-- The digest oracle of a working directory holding `a.rpm` with digest
`abc` and nothing else. -/
def digestCwdA : String → Option String :=
  fun s => if s == "a.rpm" then some "abc" else none

/-- A one-record manifest line for `a.rpm` with digest `abc`. -/
def manifestLineA : List Char := String.toList "| abc - a.rpm |\n"

/-- Witness for C4: `a.rpm` matches its manifest digest but `b.rpm` is absent
from the manifest, so the overall result is false while no digest was needed
for `b.rpm`. -/
theorem c4_verify_md5s_all_outcomes_witness :
    verify_md5s digestCwdA [⟨"a.rpm", "a.rpm"⟩, ⟨"b.rpm", "b.rpm"⟩]
      (FileState.contents [manifestLineA]) = .ok false := by
  rw [c4_verify_md5s_all_outcomes digestCwdA [⟨"a.rpm", "a.rpm"⟩, ⟨"b.rpm", "b.rpm"⟩]
    [manifestLineA] [("a.rpm", "abc")] rfl (by decide)]
  rfl

/-- C6 (amended): a missing manifest file (the only case the source's
`except AssertionError` catches) makes `verify_md5s` return false
immediately, and no digest is computed for any artifact — the result is
identical for every digest oracle and every artifact list.  An existing but
unreadable manifest is settled separately by the counterexample: its open
error propagates instead of returning false. -/
theorem c6_verify_md5s_missing_manifest (digestOf digestOf2 : String → Option String)
    (rpms rpms2 : List Rpm) :
    verify_md5s digestOf rpms FileState.absent = .ok false ∧
    verify_md5s digestOf rpms FileState.absent =
      verify_md5s digestOf2 rpms2 FileState.absent :=
  ⟨rfl, rfl⟩

/-- C6 counterexample: an existing but unreadable manifest (open raises an
I/O error, which the `except AssertionError` handler does not catch) makes
`verify_md5s` propagate the error — it does not return false. -/
theorem c6_counterexample :
    verify_md5s (fun _ => none) [⟨"a.rpm", "a.rpm"⟩] FileState.unreadable =
      .error .ioError ∧
    verify_md5s (fun _ => none) [⟨"a.rpm", "a.rpm"⟩] FileState.unreadable ≠
      .ok false :=
  ⟨rfl, fun h => Except.noConfusion h⟩

theorem verify_loop_congr (digestOf digestOf2 : String → Option String)
    (hashes : List (String × String)) (rpms : List Rpm) (passed : Bool)
    (h : ∀ r ∈ rpms, digestOf r.name = digestOf2 r.name) :
    verify_loop digestOf hashes rpms passed =
      verify_loop digestOf2 hashes rpms passed := by
  induction rpms generalizing passed with
  | nil => rfl
  | cons rpm rest ih =>
    have hr := h rpm (List.mem_cons_self _ _)
    have h2 := fun r hrm => h r (List.mem_cons_of_mem _ hrm)
    simp only [verify_loop, calc_md5, hr]
    cases dictGet? hashes rpm.name with
    | none => exact ih _ h2
    | some expected =>
      cases digestOf2 rpm.name with
      | none => rfl
      | some d =>
        cases hb : (d == expected) with
        | false => simp only [hb, Bool.not_false, if_true]; exact ih _ h2
        | true => simp only [hb, Bool.not_true, Bool.false_eq_true, if_false]; exact ih _ h2

/-- C10 (implicit): `verify_md5s` hands `calc_md5` the artifact's bare base
filename (`rpm.name`), never its recorded discovery path — the result
depends on the digest oracle only at the artifact names (first conjunct) —
and when no file exists at the bare name resolved against the working
directory (e.g. the artifact was found in a subdirectory), the digest
computation raises AssertionError instead of producing a per-artifact
outcome (second conjunct). -/
theorem c10_verify_md5s_uses_name (digestOf digestOf2 : String → Option String)
    (rpms : List Rpm) (file : FileState) (lines : List (List Char))
    (hashes : List (String × String)) (rpm : Rpm) (rest : List Rpm) :
    ((∀ r ∈ rpms, digestOf r.name = digestOf2 r.name) →
        verify_md5s digestOf rpms file = verify_md5s digestOf2 rpms file) ∧
    (read_md5_file (FileState.contents lines) = .ok hashes →
      dictMem hashes rpm.name = true → digestOf rpm.name = none →
      verify_md5s digestOf (rpm :: rest) (FileState.contents lines) =
        .error .assertionError) := by
  constructor
  · intro h
    unfold verify_md5s
    cases read_md5_file file with
    | error e => cases e <;> rfl
    | ok hs => exact verify_loop_congr digestOf digestOf2 hs rpms true h
  · intro hread hmem hnone
    obtain ⟨expected, hg⟩ := Option.isSome_iff_exists.mp (by simpa [dictMem] using hmem)
    simp [verify_md5s, hread, verify_loop, hg, calc_md5, hnone]

/-- The digest oracle of a working directory where the artifact file lives
only at `sub/a.rpm`, not at the bare name `a.rpm`. -/
def digestSubdirA : String → Option String :=
  fun s => if s == "sub/a.rpm" then some "abc" else none

/-- Witness for C10: an artifact discovered at `sub/a.rpm` whose name is in
the manifest makes the digest computation fail with AssertionError, because
only the bare name is looked up. -/
theorem c10_verify_md5s_uses_name_witness :
    verify_md5s digestSubdirA [⟨"a.rpm", "sub/a.rpm"⟩]
      (FileState.contents [manifestLineA]) = .error .assertionError :=
  (c10_verify_md5s_uses_name digestSubdirA digestSubdirA [] FileState.absent
      [manifestLineA] [("a.rpm", "abc")] ⟨"a.rpm", "sub/a.rpm"⟩ []).2
    rfl (by decide) (by decide)

/-- Splitting on each single whitespace character (like `splitOnSpace` but
for every ASCII whitespace character); used to build Python `str.split()`
semantics. -/
def splitOnWs : List Char → List (List Char)
  | [] => [[]]
  | c :: rest =>
    if isSpaceChar c then [] :: splitOnWs rest
    else
      match splitOnWs rest with
      | [] => [[c]]
      | f :: fs => (c :: f) :: fs

/-- Modelled from the spec: "split on whitespace into fields" read as
Python `str.split()` — the maximal nonempty runs of non-whitespace
characters (runs of separators produce no empty fields). -/
def pySplitWs (l : List Char) : List (List Char) :=
  (splitOnWs l).filter (fun t => !t.isEmpty)

/-- Modelled from the spec: the keep test as the claim words it — the line
starts with a pipe and the character before the trailing newline is a
pipe. -/
def specKeepLine (line : List Char) : Bool :=
  line.head? == some '|' && line.getD (line.length - 2) ' ' == '|'

/-- Modelled from the spec: "A conforming line's content is stripped of
pipe characters, trimmed, and split on whitespace into fields; field index
0 is the digest, field index 2 is the filename", folded over the lines into
the digest mapping. -/
def read_md5_file_spec (lines : List (List Char)) : List (String × String) :=
  lines.foldl (fun hashes line =>
    if specKeepLine line then
      dictSet hashes (String.mk ((pySplitWs (pyStrip (stripPipes line))).getD 2 []))
        (String.mk ((pySplitWs (pyStrip (stripPipes line))).getD 0 []))
    else hashes) []

/-- The keep test the source actually performs on a line: first character is
a pipe and the second-to-last character (`line[-2]`) is a pipe. -/
def keepLineB (line : List Char) : Bool :=
  match line with
  | [] => false
  | c :: _ => c == '|' && line.getD (line.length - 2) ' ' == '|'

/-- The fields the source extracts from a kept line: pipes removed, ends
trimmed, then split on each single space character (consecutive spaces
yield empty fields that occupy field positions). -/
def lineFields (line : List Char) : List (List Char) :=
  splitOnSpace (pyStrip (stripPipes line))

/-- Lines on which the source's line loop raises no IndexError: the line is
non-empty, a line starting with a pipe has at least two characters, and a
kept line splits into at least three fields. -/
def lineOk (line : List Char) : Bool :=
  match line with
  | [] => false
  | c :: _ =>
    !(c == '|') ||
      (decide (2 ≤ line.length) &&
        (!(line.getD (line.length - 2) ' ' == '|') ||
          decide (3 ≤ (lineFields line).length)))

/-- One line's contribution to the digest dict: a kept line binds its field
at index 2 (filename) to its field at index 0 (digest), any other line is
skipped. -/
def md5LineStep (hashes : List (String × String)) (line : List Char) :
    List (String × String) :=
  if keepLineB line then
    dictSet hashes (String.mk ((lineFields line).getD 2 []))
      (String.mk ((lineFields line).getD 0 []))
  else hashes

theorem read_md5_lines_step (line : List Char) (rest : List (List Char))
    (hashes : List (String × String)) (h : lineOk line = true) :
    read_md5_lines (line :: rest) hashes =
      read_md5_lines rest (md5LineStep hashes line) := by
  cases line with
  | nil => simp [lineOk] at h
  | cons c cs =>
    simp only [read_md5_lines, md5LineStep, keepLineB, lineFields]
    cases hc : (c == '|') with
    | false => simp [hc]
    | true =>
      simp only [lineOk, hc, Bool.not_true, Bool.false_or, Bool.and_eq_true,
        decide_eq_true_eq, Bool.or_eq_true] at h
      obtain ⟨hlen, hrest⟩ := h
      have hlen2 : 2 ≤ cs.length + 1 := by simpa using hlen
      have hnlt : ¬(cs.length + 1 < 2) := by omega
      cases hp : ((c :: cs).getD ((c :: cs).length - 2) ' ' == '|') with
      | false =>
        simp [hc, hp, hnlt]
      | true =>
        have hfields : 3 ≤ (lineFields (c :: cs)).length := by
          rcases hrest with hcontra | hf
          · rw [hp] at hcontra; exact absurd hcontra (by simp)
          · exact hf
        have hnlt3 : ¬((splitOnSpace (pyStrip (stripPipes (c :: cs)))).length < 3) := by
          simp only [lineFields] at hfields; omega
        simp [hc, hp, hnlt, hnlt3, lineFields]

theorem read_md5_lines_eq_fold (lines : List (List Char))
    (hashes : List (String × String)) (h : ∀ l ∈ lines, lineOk l = true) :
    read_md5_lines lines hashes = .ok (lines.foldl md5LineStep hashes) := by
  induction lines generalizing hashes with
  | nil => rfl
  | cons line rest ih =>
    rw [read_md5_lines_step line rest hashes (h line (List.mem_cons_self _ _)),
      List.foldl_cons]
    exact ih _ (fun l hm => h l (List.mem_cons_of_mem _ hm))

/-- C7 (amended): on lines that raise no IndexError, `read_md5_file` keeps
exactly the lines whose first character is a pipe and whose second-to-last
character is a pipe, silently skipping all others; each kept line's content
is stripped of pipe characters, trimmed, and split on each single space
character (not on general whitespace: consecutive spaces yield empty fields
that occupy field positions), with field index 0 recorded as the digest for
the filename at field index 2. -/
theorem c7_read_md5_file_line_format (lines : List (List Char))
    (h : ∀ l ∈ lines, lineOk l = true) :
    read_md5_file (FileState.contents lines) =
      .ok (lines.foldl md5LineStep []) :=
  read_md5_lines_eq_fold lines [] h

/-- Witness for C7 (amended): a single conforming single-spaced manifest
line is parsed into its digest/filename pair. -/
theorem c7_read_md5_file_line_format_witness :
    read_md5_file (FileState.contents [manifestLineA]) =
      .ok [("a.rpm", "abc")] := by
  rw [c7_read_md5_file_line_format [manifestLineA] (by decide)]
  rfl

/-- C7 counterexample: on the conforming line `| a  b c |` (two spaces
between the first two inner fields) the source's split on single spaces
produces the fields `a`, ``, `b`, `c`, so field index 2 is `b` and the
recorded pair is `b ↦ a`; splitting on whitespace as the claim states would
give fields `a`, `b`, `c` and record `c ↦ a`.  The two readings disagree on
this input. -/
theorem c7_counterexample :
    read_md5_file (FileState.contents [String.toList "| a  b c |\n"]) =
      .ok [("b", "a")] ∧
    read_md5_file_spec [String.toList "| a  b c |\n"] = [("c", "a")] ∧
    (("b", "a") : String × String) ≠ ("c", "a") :=
  ⟨rfl, rfl, by decide⟩

/-- An operation the source performs on the remote process's stdin stream. -/
inductive StdinEvent where
  | write (s : String)
  | flush
  | closeEvent
deriving DecidableEq

/-- What one call of `remote_privileged_command` does: the full command
string passed to `exec_command`, the operations performed on the stdin
stream in order, and the returned success bool. -/
structure PrivCmdTrace where
  command : String
  stdinEvents : List StdinEvent
  result : Bool
deriving DecidableEq

/-- `remote_privileged_command(ssh, command, remote_password)` from the
source, with the remote side abstracted into `exitCodeOf`, the exit status
the remote returns for a full command string.  The command is wrapped as
`sudo -S -p '' <command>` (a sudo invocation reading the password from
stdin), the password plus a newline is written to the stream immediately
after invocation, the stream is flushed, and the function returns whether
the exit status is 0.  The source performs no further stdin operation — in
particular it never closes the stream for writing. -/
def remote_privileged_command (exitCodeOf : String → Int) (command : String)
    (remote_password : String) : PrivCmdTrace :=
  { command := "sudo -S -p '' " ++ command
  , stdinEvents := [StdinEvent.write (remote_password ++ "\n"), StdinEvent.flush]
  , result := exitCodeOf ("sudo -S -p '' " ++ command) == 0 }

/-- `yum_install_remote(ssh, path, remote_password)` from the source:
run `yum -y install <path>` via `remote_privileged_command`. -/
def yum_install_remote (exitCodeOf : String → Int) (path : String)
    (remote_password : String) : PrivCmdTrace :=
  remote_privileged_command exitCodeOf ("yum -y install " ++ path) remote_password

/-- The remote host's behaviour during one `install_remote` run (session
already established): the result of the non-privileged mkdir command, the
result of the scp batch upload (false when `scp.put` raised), and the exit
status of each privileged command. -/
structure RemoteEnv where
  mkdir_ok : Bool
  upload_ok : Bool
  exitCodeOf : String → Int

/-- A remote operation attempted by `install_remote`, in order. -/
inductive RemoteEvent where
  | mkdirCmd (dir : String)
  | uploadFiles (files : List String) (dest : String)
  | installCmd (path : String)
deriving DecidableEq

/-- The observable outcome of one `install_remote` host deployment. -/
structure InstallRun where
  events : List RemoteEvent
  mkdirRes : Bool
  uploadRes : Bool
  installRes : List (String × Bool)
  result : Bool
deriving DecidableEq

/-- `install_remote(rpms, remote_ip, remote_username, remote_password)` from
the source, modelling a run in which `remote_connect` succeeded; `today` is
the `datetime.date.today().strftime('%Y%m%d')` stamp.  The source's helper
`_check_fail` only prints a warning, and its return value is discarded at
every call site, so the control flow is unconditional: the mkdir result does
not gate the upload, the upload result does not gate the installs, every
artifact is installed in upload order via `yum_install_remote` at
`<upload_dir>/<name>`, and the function returns True at the end regardless
of any recorded failure. -/
def install_remote (env : RemoteEnv) (rpms : List Rpm) (today : String)
    (remote_password : String) : InstallRun :=
  { events :=
      RemoteEvent.mkdirCmd ("installtool-" ++ today) ::
      RemoteEvent.uploadFiles (rpms.map (fun x => x.path)) ("installtool-" ++ today) ::
      (rpms.map (fun x => "installtool-" ++ today ++ "/" ++ x.name)).map
        RemoteEvent.installCmd
  , mkdirRes := env.mkdir_ok
  , uploadRes := env.upload_ok
  , installRes := (rpms.map (fun x => "installtool-" ++ today ++ "/" ++ x.name)).map
      (fun remote => (remote, (yum_install_remote env.exitCodeOf remote
        remote_password).result))
  , result := true }

/-- C1 (amended): a failed install of one artifact does not abort the
remaining installs — the attempted events are identical for every remote
environment and password (attempts never depend on outcomes), the
per-artifact outcomes are recorded in upload order, one per artifact at its
staged path; however the host-level value `install_remote` returns is True
unconditionally, not the AND of the per-artifact outcomes. -/
theorem c1_install_attempts_all_artifacts (env env2 : RemoteEnv) (rpms : List Rpm)
    (today pw pw2 : String) :
    (install_remote env rpms today pw).events =
      (install_remote env2 rpms today pw2).events ∧
    (install_remote env rpms today pw).installRes =
      rpms.map (fun x => ("installtool-" ++ today ++ "/" ++ x.name,
        (yum_install_remote env.exitCodeOf
          ("installtool-" ++ today ++ "/" ++ x.name) pw).result)) ∧
    (install_remote env rpms today pw).result = true := by
  refine ⟨rfl, ?_, rfl⟩
  simp [install_remote, List.map_map, Function.comp]

/-- A remote host on which only the install of `installtool-20251012/a.rpm`
exits with status 0 and every other privileged command fails. -/
def envOneInstallFails : RemoteEnv :=
  ⟨true, true, fun cmd =>
    if cmd == "sudo -S -p '' yum -y install installtool-20251012/a.rpm" then 0 else 1⟩

/-- C1 counterexample: with two artifacts of which the second install fails,
the AND of the per-artifact outcomes is false, yet `install_remote` returns
True — the host-level success value is not the AND of the per-artifact
outcomes. -/
theorem c1_counterexample :
    ((install_remote envOneInstallFails
        [⟨"a.rpm", "a.rpm"⟩, ⟨"b.rpm", "b.rpm"⟩] "20251012" "pw").installRes.all
      (fun p => p.2)) = false ∧
    (install_remote envOneInstallFails
        [⟨"a.rpm", "a.rpm"⟩, ⟨"b.rpm", "b.rpm"⟩] "20251012" "pw").result = true :=
  ⟨by decide, rfl⟩

/-- C2 (amended): when the batch upload of a host's artifacts fails, the
failure is recorded, but the install phase is not skipped: a privileged
install command is still issued for every artifact of that host (the
`_check_fail` result of the upload call is discarded). -/
theorem c2_upload_failure_not_skipping (env : RemoteEnv) (rpms : List Rpm)
    (today pw : String) (h : env.upload_ok = false) :
    (install_remote env rpms today pw).uploadRes = false ∧
    ∀ rpm ∈ rpms,
      RemoteEvent.installCmd ("installtool-" ++ today ++ "/" ++ rpm.name) ∈
        (install_remote env rpms today pw).events := by
  refine ⟨h, ?_⟩
  intro rpm hm
  simp only [install_remote, List.mem_cons]
  right; right
  exact List.mem_map_of_mem _ (List.mem_map_of_mem _ hm)

/-- A remote host on which the scp batch upload fails. -/
def envUploadFail : RemoteEnv := ⟨true, false, fun _ => 0⟩

/-- C2 counterexample: the upload failed, yet the privileged install command
for the staged path of the host's artifact is still issued — the install
phase is not skipped as the claim states. -/
theorem c2_counterexample :
    (install_remote envUploadFail [⟨"a.rpm", "a.rpm"⟩] "20251012" "pw").uploadRes =
      false ∧
    RemoteEvent.installCmd "installtool-20251012/a.rpm" ∈
      (install_remote envUploadFail [⟨"a.rpm", "a.rpm"⟩] "20251012" "pw").events :=
  ⟨rfl, by decide⟩

/-- Witness for C2 (amended): applied to the concrete failed-upload host. -/
theorem c2_upload_failure_not_skipping_witness :
    (install_remote envUploadFail [⟨"b.rpm", "b.rpm"⟩] "20251012" "pw").uploadRes =
      false ∧
    ∀ rpm ∈ ([⟨"b.rpm", "b.rpm"⟩] : List Rpm),
      RemoteEvent.installCmd ("installtool-" ++ "20251012" ++ "/" ++ rpm.name) ∈
        (install_remote envUploadFail [⟨"b.rpm", "b.rpm"⟩] "20251012" "pw").events :=
  c2_upload_failure_not_skipping envUploadFail [⟨"b.rpm", "b.rpm"⟩] "20251012" "pw" rfl

/-- C8: a failed staging-directory creation is recorded but does not prevent
the upload attempt: even when the mkdir command fails, the batch upload of
the host's artifacts still occurs. -/
theorem c8_mkdir_failure_not_gating_upload (env : RemoteEnv) (rpms : List Rpm)
    (today pw : String) (h : env.mkdir_ok = false) :
    (install_remote env rpms today pw).mkdirRes = false ∧
    RemoteEvent.uploadFiles (rpms.map (fun x => x.path)) ("installtool-" ++ today) ∈
      (install_remote env rpms today pw).events := by
  refine ⟨h, ?_⟩
  simp [install_remote]

/-- A remote host on which the staging-directory creation fails. -/
def envMkdirFail : RemoteEnv := ⟨false, true, fun _ => 0⟩

/-- Witness for C8: applied to the concrete failed-mkdir host. -/
theorem c8_mkdir_failure_not_gating_upload_witness :
    (install_remote envMkdirFail [⟨"a.rpm", "a.rpm"⟩] "20251012" "pw").mkdirRes =
      false ∧
    RemoteEvent.uploadFiles (([⟨"a.rpm", "a.rpm"⟩] : List Rpm).map (fun x => x.path))
        ("installtool-" ++ "20251012") ∈
      (install_remote envMkdirFail [⟨"a.rpm", "a.rpm"⟩] "20251012" "pw").events :=
  c8_mkdir_failure_not_gating_upload envMkdirFail [⟨"a.rpm", "a.rpm"⟩] "20251012" "pw" rfl

/-- C9 (amended): `remote_privileged_command` wraps the given command in a
sudo invocation that reads the account password from standard input, writes
the password plus a newline to the remote process's input stream immediately
after invocation and then flushes it — but never explicitly closes the
stream for writing — and returns whether the command's exit status is zero;
the command/password pair appears in nothing but this one command's
trace. -/
theorem c9_priv_command_protocol (exitCodeOf : String → Int) (command pw : String) :
    (remote_privileged_command exitCodeOf command pw).command =
      "sudo -S -p '' " ++ command ∧
    (remote_privileged_command exitCodeOf command pw).stdinEvents =
      [StdinEvent.write (pw ++ "\n"), StdinEvent.flush] ∧
    (remote_privileged_command exitCodeOf command pw).result =
      (exitCodeOf ("sudo -S -p '' " ++ command) == 0) :=
  ⟨rfl, rfl, rfl⟩

/-- C9 counterexample: the stdin stream operations of a concrete privileged
command contain no close — the stream is not closed for writing, contrary to
the claim's "flushed and closed for writing". -/
theorem c9_counterexample :
    StdinEvent.closeEvent ∉
      (remote_privileged_command (fun _ => 0) "yum -y install pkg.rpm"
        "pw").stdinEvents := by
  decide
